import Mathlib

/-!
Shallow embedding of the MEPS fixed-width file parser (`meps_parser.py`).

Conventions of the embedding:
* Python strings become Lean `String`; slicing `line[a:b]` (which clamps out-of-range
  indices and never fails) becomes `pySlice`.
* Python `Decimal` values become rationals `ℚ`.  The `Decimal` constructor is exact;
  arithmetic runs under the default context (28 significant digits, half-even), so the
  division performed by `_parse_decimal` is modelled with `round28`, which returns the
  exact quotient whenever it fits in 28 significant digits and otherwise rounds its
  28th significant digit half-even.  The monetary fields of this format are at most 16
  digits, where the rounding is always the identity, but `_parse_decimal` itself can
  be fed longer strings.  The additions and comparisons of `_validate_file` operate on
  such in-range values and are exact.
* `int(s)` / `Decimal(s)` constructors become `pyInt` / `pyDecimal`, modelling the
  grammar relevant to this format: optional surrounding whitespace, an optional sign,
  decimal digits (and for `Decimal` an optional fractional part).  Exotic inputs the
  Python constructors would also accept (digit-group underscores, exponents, `NaN`,
  non-ASCII digits) do not occur in fixed-width numeric fields and are not modelled.
* Exceptions become `Except`.  `Exc` distinguishes the parser's own `MEPSError`
  hierarchy (`MEPSErr`) from raw Python exceptions such as `ValueError` (`Exc.py`),
  because the `_error_context` manager re-raises the former unchanged and wraps the
  latter into a parsing error.
* `datetime.now()` and the source file path are nondeterministic/ambient inputs; they
  are passed in explicitly as the `now` and `fname` arguments (`fname` is the stem that
  `parse_file` hands to the record decoders).
* Input lines are given without their trailing newline.  In the Python source the
  newline survives into a line's final slice only, and every consumer of a slice that
  can reach it (`.strip()`, `int`, `Decimal`) discards surrounding whitespace, so this
  is behaviour-equivalent.
-/

attribute [local semireducible] Rat.add Rat.mul Rat.inv Rat.sub

namespace MEPS

/-- Python slice `s[a:b]`: characters `a` to `b-1`, clamped to the string, never failing. -/
def pySlice (s : String) (a b : Nat) : String :=
  String.mk ((s.toList.drop a).take (b - a))

/-- Whitespace trimming on character lists, as done by Python `str.strip()`. -/
def stripChars (l : List Char) : List Char :=
  (l.dropWhile Char.isWhitespace).rdropWhile Char.isWhitespace

/-- Python `str.strip()`. -/
def pyStrip (s : String) : String :=
  String.mk (stripChars s.toList)

/-- Numeric value of a list of decimal digit characters. -/
def natVal (ds : List Char) : Nat :=
  ds.foldl (fun a c => 10 * a + (c.toNat - 48)) 0

/-- Value of a nonempty all-digit character list; `none` otherwise. -/
def digitsToNat (ds : List Char) : Option Nat :=
  if ds ≠ [] ∧ ds.all Char.isDigit then some (natVal ds) else none

/-- Sign-and-digits reading of `int(s)` after whitespace stripping. -/
def pyIntCore (cs : List Char) : Option Int :=
  match cs with
  | [] => none
  | c :: rest =>
      if c = '+' then (digitsToNat rest).map Int.ofNat
      else if c = '-' then (digitsToNat rest).map (fun m => -Int.ofNat m)
      else (digitsToNat (c :: rest)).map Int.ofNat

/-- Python `int(s)`: strip whitespace, optional sign, decimal digits. -/
def pyInt (s : String) : Option Int :=
  pyIntCore (stripChars s.toList)

/-- Sign handling of the `Decimal` constructor: an optional leading `+` or `-`
determines the sign, the remainder is the number body. -/
def decSign (cs : List Char) : ℚ × List Char :=
  match cs with
  | [] => (1, [])
  | c :: rest =>
      if c = '+' then (1, rest)
      else if c = '-' then (-1, rest)
      else (1, c :: rest)

/-- Body handling of the `Decimal` constructor: integer digits with an optional
`.`-separated fractional part, at least one digit in total. -/
def decBody (sign : ℚ) (body : List Char) : Option ℚ :=
  match body.dropWhile Char.isDigit with
  | [] =>
      if body.takeWhile Char.isDigit = [] then none
      else some (sign * (natVal (body.takeWhile Char.isDigit) : ℚ))
  | c :: frac =>
      if c = '.' then
        if frac.all Char.isDigit ∧ (body.takeWhile Char.isDigit ≠ [] ∨ frac ≠ []) then
          some (sign * ((natVal (body.takeWhile Char.isDigit) : ℚ) +
            (natVal frac : ℚ) / (10 : ℚ) ^ frac.length))
        else none
      else none

/-- Python `Decimal(s)` on the plain-number grammar: strip whitespace, optional sign,
integer digits with an optional `.`-separated fractional part (at least one digit in
total), valued exactly in `ℚ` (the `Decimal` constructor does not round). -/
def pyDecimal (s : String) : Option ℚ :=
  decBody (decSign (stripChars s.toList)).1 (decSign (stripChars s.toList)).2

/-- Decimal digit count by fuel recursion (any `fuel > n` gives the digit count). -/
def numDigitsAux : Nat → Nat → Nat
  | 0, _ => 0
  | fuel + 1, n => if n = 0 then 0 else numDigitsAux fuel (n / 10) + 1

/-- Number of decimal digits of a positive integer (`numDigits 0 = 0`). -/
def numDigits (n : Nat) : Nat :=
  numDigitsAux (n + 1) n

/-- Floor of the base-10 logarithm of a positive rational: the digit-count difference
of numerator and denominator is either the floor or one above it, decided by one
comparison. -/
def ratFloorLog10 (x : ℚ) : Int :=
  if (10 : ℚ) ^ ((numDigits x.num.natAbs : Int) - (numDigits x.den : Int)) ≤ x then
    (numDigits x.num.natAbs : Int) - (numDigits x.den : Int)
  else (numDigits x.num.natAbs : Int) - (numDigits x.den : Int) - 1

/-- Floor of a rational as an integer. -/
def intFloorQ (x : ℚ) : Int :=
  Int.fdiv x.num x.den

/-- Round a rational to the nearest integer, ties to even (`ROUND_HALF_EVEN`). -/
def roundHalfEvenQ (x : ℚ) : Int :=
  if x - (intFloorQ x : ℚ) < 1 / 2 then intFloorQ x
  else if (1 / 2 : ℚ) < x - (intFloorQ x : ℚ) then intFloorQ x + 1
  else if intFloorQ x % 2 = 0 then intFloorQ x else intFloorQ x + 1

/-- Rounding of the default `decimal` context (`getcontext().prec = 28`, rounding
`ROUND_HALF_EVEN`), as applied by `Decimal` arithmetic such as the division in
`_parse_decimal`: a nonzero result is scaled by a power of ten so that its magnitude
has its 28th significant digit in the units place; when that scaled magnitude is an
integer the result is exactly representable within the context precision and is
returned unchanged, otherwise it is rounded half-even at that digit. -/
def round28 (x : ℚ) : ℚ :=
  if x = 0 then 0
  else if (|x| * (10 : ℚ) ^ ((27 : Int) - ratFloorLog10 |x|)).den = 1 then x
  else
    (if x < 0 then -1 else 1) *
      ((roundHalfEvenQ (|x| * (10 : ℚ) ^ ((27 : Int) - ratFloorLog10 |x|)) : ℤ) : ℚ) *
      (10 : ℚ) ^ (ratFloorLog10 |x| - 27)

/-- Error kinds of the `MEPSError` hierarchy: `MEPSValidationError` and
`MEPSParsingError` (the abstract base `MEPSError` is never raised directly). -/
inductive MEPSErr where
  | validation (msg : String)
  | parsing (msg : String)
deriving DecidableEq

/-- Python `str(e)` on a `MEPSError`: its message. -/
def MEPSErr.message : MEPSErr → String
  | .validation m => m
  | .parsing m => m

/-- An exception in flight inside a decoder: either a `MEPSError`, or a raw Python
exception such as the `ValueError` of a failed `int(...)` call. -/
inductive Exc where
  | meps (e : MEPSErr)
  | py (msg : String)
deriving DecidableEq

/-- The `_error_context(context)` manager: a `MEPSError` propagates unchanged, any
other exception is wrapped into `MEPSParsingError("Error in {context}: ...")`. -/
def errorContext (ctx : String) (r : Except Exc α) : Except MEPSErr α :=
  match r with
  | .ok a => .ok a
  | .error (.meps e) => .error e
  | .error (.py m) => .error (.parsing ("Error in " ++ ctx ++ ": " ++ m))

/-- The character codes enumerated by the `TerminalType` `Enum`
(ATM, POS, EMPRESA, INTERNET, BANCO, TELEVINTI4, QUIOSQUE). -/
def terminalTypeCodes : List String := ["A", "B", "E", "I", "L", "M", "N"]

/-- `TerminalType.from_code` as written in the source: the body is `return code`, so it
returns the raw string unchanged for every input; the `except ValueError` branch that
would raise `MEPSValidationError` is unreachable (a bare `return` cannot raise). -/
def TerminalType.from_code (code : String) : String := code

/-- The `MEPSHeader` dataclass. -/
structure MEPSHeader where
  id : Int
  tipreg : String
  fich : String
  idinstori : String
  idinstdes : String
  idfich : String
  idfichant : String
  entidade : String
  codmoeda : String
  taxaiva : ℚ
  idfichedst : String
  filename : String
  datetime : String
deriving DecidableEq

/-- The `MEPSDetail` dataclass.  `tipoterm` is a `String` because the record stores
whatever `TerminalType.from_code` returns, which is the raw slice text. -/
structure MEPSDetail where
  id : Int
  tipreg : String
  codproc : String
  idlog : String
  nrlog : String
  dthora : String
  montpgps : ℚ
  tarifaps : ℚ
  tipoterm : String
  idterminal : String
  identranps : String
  locmorter : String
  refpag : String
  modenv : String
  codresp : String
  nridresps : String
  version : Nat
  filename : String
  datetime : String
deriving DecidableEq

/-- The `net_amount` property: `montpgps - tarifaps`. -/
def MEPSDetail.net_amount (d : MEPSDetail) : ℚ :=
  d.montpgps - d.tarifaps

/-- The `MEPSTrailer` dataclass. -/
structure MEPSTrailer where
  id : Int
  tipreg : String
  totreg : Int
  montranps : ℚ
  tottarps : ℚ
  valiva : ℚ
  entidade : String
  filename : String
  datetime : String
deriving DecidableEq

/-- The `MEPSFile` aggregate of one successful parse. -/
structure MEPSFile where
  header : MEPSHeader
  details : List MEPSDetail
  trailer : MEPSTrailer
deriving DecidableEq

/-- Suffix after the last occurrence of `sep`, `none` if `sep` does not occur. -/
def afterLastSub (sep : List Char) : List Char → Option (List Char)
  | [] => none
  | c :: rest =>
      match afterLastSub sep rest with
      | some r => some r
      | none =>
          if sep.isPrefixOf (c :: rest) then some (List.drop sep.length (c :: rest))
          else none

/-- `os.path.basename`: the part after the last `/`. -/
def pyBasename (s : String) : String :=
  String.mk ((afterLastSub ('/' :: []) s.toList).getD s.toList)

/-- `_parse_decimal(value, decimal_places)`: `Decimal(value.strip()) / Decimal(10 **
decimal_places)`, with any failure turned into `MEPSValidationError`.  The division by
a power of ten cannot fail, so only the `Decimal` construction can; the division runs
under the default context and therefore rounds its result to 28 significant digits
(`round28`), which is the identity whenever the quotient fits that precision. -/
def parseDecimal (value : String) (places : Nat := 2) : Except MEPSErr ℚ :=
  match pyDecimal (pyStrip value) with
  | some q => .ok (round28 (q / (10 : ℚ) ^ places))
  | none => .error (.validation "Invalid decimal value")

/-- `parse_header`.  Python evaluates the constructor arguments left to right, so the
`int(line[21:32] + line[46:51])` conversion runs first (a raw `ValueError` on failure),
then `_parse_decimal(line[54:57])` with its default 2 decimal places; the dataclass
`__post_init__` checks of `tipreg` and `fich` run after field construction (its final
`Decimal(self.taxaiva)` re-conversion of an already-`Decimal` value cannot fail). -/
def parseHeader (line fname now : String) : Except MEPSErr MEPSHeader :=
  errorContext "header parsing"
    (match pyInt (pySlice line 21 32 ++ pySlice line 46 51) with
     | none => .error (.py "invalid literal for int with base 10")
     | some i =>
       match parseDecimal (pySlice line 54 57) 2 with
       | .error e => .error (.meps e)
       | .ok taxaiva =>
         if pySlice line 0 1 ≠ "0" then
           .error (.meps (.validation "Invalid header record type"))
         else if pyStrip (pySlice line 1 5) ≠ "MEPS" then
           .error (.meps (.validation "Invalid file type"))
         else
           .ok { id := i
                 tipreg := pySlice line 0 1
                 fich := pyStrip (pySlice line 1 5)
                 idinstori := pyStrip (pySlice line 5 13)
                 idinstdes := pyStrip (pySlice line 13 21)
                 idfich := pyStrip (pySlice line 21 32)
                 idfichant := pyStrip (pySlice line 32 43)
                 entidade := pyStrip (pySlice line 46 51)
                 codmoeda := pyStrip (pySlice line 51 54)
                 taxaiva := taxaiva
                 idfichedst := pyStrip (pySlice line 57 68)
                 filename := pyBasename fname
                 datetime := now })

/-- `parse_detail`.  The layout revision is `2` when the trimmed line length is at
least 103 and `1` otherwise; the `id` conversion `int(line[3:7] + line[7:15])` runs
first, then the shared `montpgps` field, then the revision-specific fields. -/
def parseDetail (line fname now : String) : Except MEPSErr MEPSDetail :=
  errorContext "detail parsing"
    (let version : Nat := if 103 ≤ (pyStrip line).length then 2 else 1
     match pyInt (pySlice line 3 7 ++ pySlice line 7 15) with
     | none => .error (.py "invalid literal for int with base 10")
     | some i =>
       match parseDecimal (pySlice line 29 39) 2 with
       | .error e => .error (.meps e)
       | .ok montpgps =>
         if version = 1 then
           match parseDecimal (pySlice line 39 44) 2 with
           | .error e => .error (.meps e)
           | .ok tarifaps =>
             .ok { id := i
                   tipreg := pySlice line 0 1
                   codproc := pyStrip (pySlice line 1 3)
                   idlog := pyStrip (pySlice line 3 7)
                   nrlog := pyStrip (pySlice line 7 15)
                   dthora := pyStrip (pySlice line 15 29)
                   montpgps := montpgps
                   tarifaps := tarifaps
                   tipoterm := TerminalType.from_code (pyStrip (pySlice line 44 45))
                   idterminal := pyStrip (pySlice line 45 55)
                   identranps := pyStrip (pySlice line 55 60)
                   locmorter := pyStrip (pySlice line 60 75)
                   refpag := pyStrip (pySlice line 75 84)
                   modenv := pyStrip (pySlice line 84 85)
                   codresp := pyStrip (pySlice line 85 86)
                   nridresps := pyStrip (pySlice line 86 98)
                   version := version
                   filename := pyBasename fname
                   datetime := now }
         else
           match parseDecimal (pySlice line 39 49) 2 with
           | .error e => .error (.meps e)
           | .ok tarifaps =>
             .ok { id := i
                   tipreg := pySlice line 0 1
                   codproc := pyStrip (pySlice line 1 3)
                   idlog := pyStrip (pySlice line 3 7)
                   nrlog := pyStrip (pySlice line 7 15)
                   dthora := pyStrip (pySlice line 15 29)
                   montpgps := montpgps
                   tarifaps := tarifaps
                   tipoterm := TerminalType.from_code (pyStrip (pySlice line 49 50))
                   idterminal := pyStrip (pySlice line 50 60)
                   identranps := pyStrip (pySlice line 60 65)
                   locmorter := pyStrip (pySlice line 65 80)
                   refpag := pyStrip (pySlice line 80 89)
                   modenv := pyStrip (pySlice line 89 90)
                   codresp := pyStrip (pySlice line 90 91)
                   nridresps := pyStrip (pySlice line 91 103)
                   version := version
                   filename := pyBasename fname
                   datetime := now })

/-- Python `str.split(sep)` for a single-character separator. -/
def splitOnChar (sep : Char) : List Char → List (List Char)
  | [] => [[]]
  | c :: rest =>
      match splitOnChar sep rest with
      | [] => [[]]
      | g :: gs => if c = sep then [] :: g :: gs else (c :: g) :: gs

/-- `filename.split("_")`. -/
def splitUnderscore (s : String) : List String :=
  (splitOnChar '_' s.toList).map String.mk

/-- Model of `re.sub("^.*MEPS_|_.*$", "", filename)`: the greedy first alternative
removes everything up to and including the last occurrence of `MEPS_` (or nothing if it
does not occur), after which the second alternative removes everything from the first
remaining underscore to the end. -/
def subEntidade (s : String) : String :=
  String.mk (((afterLastSub "MEPS_".toList s.toList).getD s.toList).takeWhile
    (fun c => c ≠ '_'))

/-- Digits of the last occurrence of the pattern underscore + 14 digits + underscore;
`none` when the pattern does not occur. -/
def lastDtGroup : List Char → Option (List Char)
  | [] => none
  | c :: rest =>
      match lastDtGroup rest with
      | some g => some g
      | none =>
          if c = '_' ∧ (rest.take 14).length = 14 ∧ (rest.take 14).all Char.isDigit ∧
              (rest.drop 14).head? = some '_' then
            some (rest.take 14)
          else none

/-- Model of `re.sub("^.*_(\\d{14})_.*$", "\\1", filename)`: when the anchored pattern
matches, the whole string is replaced by the 14-digit group chosen by the greedy `.*`
(the last matching position); when it does not match, `re.sub` returns the string
unchanged. -/
def subFilenameDt (s : String) : String :=
  String.mk ((lastDtGroup s.toList).getD s.toList)

/-- `parse_trailer`.  In source order: index `filename.split("_")[1]` (a raw
`IndexError` when missing), the `entidade` substitution, `int(entidade_number)`, the
timestamp substitution, then the constructor arguments left to right with their `int`
conversions, and the three `_parse_decimal` fields. -/
def parseTrailer (line fname now : String) : Except MEPSErr MEPSTrailer :=
  errorContext "trailer parsing"
    (match (splitUnderscore fname).get? 1 with
     | none => .error (.py "list index out of range")
     | some entStr =>
       let entidade := subEntidade fname
       match pyInt entStr with
       | none => .error (.py "invalid literal for int with base 10")
       | some entNum =>
         let filenameDt := subFilenameDt fname
         match pyInt (filenameDt ++ toString entNum) with
         | none => .error (.py "invalid literal for int with base 10")
         | some i =>
           match pyInt (pyStrip (pySlice line 1 9)) with
           | none => .error (.py "invalid literal for int with base 10")
           | some totreg =>
             match parseDecimal (pySlice line 9 25) 2 with
             | .error e => .error (.meps e)
             | .ok montranps =>
               match parseDecimal (pySlice line 25 37) 2 with
               | .error e => .error (.meps e)
               | .ok tottarps =>
                 match parseDecimal (pySlice line 37 49) 2 with
                 | .error e => .error (.meps e)
                 | .ok valiva =>
                   .ok { id := i
                         tipreg := pySlice line 0 1
                         totreg := totreg
                         montranps := montranps
                         tottarps := tottarps
                         valiva := valiva
                         entidade := entidade
                         filename := fname
                         datetime := now })

/-- The parser's in-progress aggregate (`self.header`, `self.details`,
`self.trailer` after `_reset`). -/
structure ParserState where
  header : Option MEPSHeader
  details : List MEPSDetail
  trailer : Option MEPSTrailer
deriving DecidableEq

/-- The state `_reset` establishes. -/
def initState : ParserState := ⟨none, [], none⟩

/-- The `try` block of one `parse_file` loop iteration: dispatch on the first
character (header and trailer are overwritten last-write-wins, details are appended);
an unknown marker raises the invalid-record-type `MEPSValidationError`. -/
def dispatchLine (fname now : String) (st : ParserState) (line : String) :
    Except MEPSErr ParserState :=
  if pySlice line 0 1 = "0" then
    match parseHeader line fname now with
    | .ok h => .ok { st with header := some h }
    | .error e => .error e
  else if pySlice line 0 1 = "2" then
    match parseDetail line fname now with
    | .ok d => .ok { st with details := st.details ++ [d] }
    | .error e => .error e
  else if pySlice line 0 1 = "9" then
    match parseTrailer line fname now with
    | .ok t => .ok { st with trailer := some t }
    | .error e => .error e
  else .error (.validation ("Invalid record type: " ++ pySlice line 0 1))

/-- One iteration of the `parse_file` loop on the 1-based line `n`: skip blank lines,
run the dispatch, and wrap ANY exception of the iteration — `MEPSValidationError`
included — into `MEPSParsingError("Error on line {n}: ...")`. -/
def processLine (fname now : String) (st : ParserState) (n : Nat) (line : String) :
    Except MEPSErr ParserState :=
  if pyStrip line = "" then .ok st
  else
    match dispatchLine fname now st line with
    | .ok st2 => .ok st2
    | .error e => .error (.parsing ("Error on line " ++ toString n ++ ": " ++ e.message))

/-- The `enumerate(file, 1)` loop of `parse_file`. -/
def processLines (fname now : String) : Nat → ParserState → List String →
    Except MEPSErr ParserState
  | _, st, [] => .ok st
  | n, st, l :: rest =>
      match processLine fname now st n l with
      | .error e => .error e
      | .ok st2 => processLines fname now (n + 1) st2 rest

/-- `sum(detail.montpgps for detail in self.details)`. -/
def sumMontpgps (ds : List MEPSDetail) : ℚ :=
  (ds.map MEPSDetail.montpgps).sum

/-- `sum(detail.tarifaps for detail in self.details)`. -/
def sumTarifaps (ds : List MEPSDetail) : ℚ :=
  (ds.map MEPSDetail.tarifaps).sum

/-- `_validate_file`, in source order: missing header, missing trailer, empty detail
list, record-count mismatch, amount reconciliation, fee reconciliation.  Every raise
is a `MEPSValidationError`; the surrounding `_error_context("file validation")` passes
those through unchanged, and no other exception can occur here (`Decimal` arithmetic
and comparisons on these finite values are total). -/
def validateFile (header : Option MEPSHeader) (details : List MEPSDetail)
    (trailer : Option MEPSTrailer) : Except MEPSErr Unit :=
  if header.isNone then .error (.validation "Missing header record")
  else
    match trailer with
    | none => .error (.validation "Missing trailer record")
    | some t =>
      if details.isEmpty then .error (.validation "No detail records found")
      else if (details.length : Int) ≠ t.totreg then
        .error (.validation "Record count mismatch")
      else
        let expected := sumMontpgps details - sumTarifaps details
        if (1 / 100 : ℚ) < |expected - t.montranps| then
          .error (.validation "Amount mismatch")
        else if (1 / 100 : ℚ) < |sumTarifaps details - t.tottarps| then
          .error (.validation "Fee mismatch")
        else .ok ()

/-- `parse_file` on the file's lines (without terminators) and its path stem: run the
line loop from line 1 on a reset state, validate, and assemble the `MEPSFile`.  The
final branch on the options is dead code: `validateFile` only succeeds when header and
trailer are present. -/
def parseFile (lines : List String) (fname now : String) : Except MEPSErr MEPSFile :=
  match processLines fname now 1 initState lines with
  | .error e => .error e
  | .ok st =>
    match validateFile st.header st.details st.trailer with
    | .error e => .error e
    | .ok _ =>
      match st.header, st.trailer with
      | some h, some t => .ok { header := h, details := st.details, trailer := t }
      | _, _ => .error (.validation "Missing header record")

/-- Trailer's declared record count, defaulting when the trailer is absent (the
default is never reached: the trailer-absent check precedes every use). -/
def trailerTotreg : Option MEPSTrailer → Int
  | some t => t.totreg
  | none => 0

/-- Trailer's declared total transaction amount, defaulting when absent. -/
def trailerMontranps : Option MEPSTrailer → ℚ
  | some t => t.montranps
  | none => 0

/-- Trailer's declared total fees, defaulting when absent. -/
def trailerTottarps : Option MEPSTrailer → ℚ
  | some t => t.tottarps
  | none => 0

/-- Whole-file validation stated in the spec's own words (§4.6): an ordered list of
checks — header absent, trailer absent, empty detail sequence, record-count mismatch,
amount reconciliation beyond 0.01, fee reconciliation beyond 0.01 — of which the first
violated one is reported, as a validation error. -/
def firstViolation (header : Option MEPSHeader) (details : List MEPSDetail)
    (trailer : Option MEPSTrailer) : Option MEPSErr :=
  let checks : List (Bool × MEPSErr) :=
    [ (header.isNone, .validation "Missing header record"),
      (trailer.isNone, .validation "Missing trailer record"),
      (details.isEmpty, .validation "No detail records found"),
      (decide ((details.length : Int) ≠ trailerTotreg trailer),
        .validation "Record count mismatch"),
      (decide ((1 / 100 : ℚ) <
          |sumMontpgps details - sumTarifaps details - trailerMontranps trailer|),
        .validation "Amount mismatch"),
      (decide ((1 / 100 : ℚ) < |sumTarifaps details - trailerTottarps trailer|),
        .validation "Fee mismatch") ]
  (checks.find? (fun c => c.1)).map (fun c => c.2)

deriving instance DecidableEq for Except

/-- Value of a successful `Except`, with a default for the error case (used only to
name concrete parse results in closed statements). -/
def getOk (r : Except MEPSErr α) (d : α) : α :=
  match r with
  | .ok a => a
  | .error _ => d

/-- Placeholder header used as the `getOk` default. -/
def emptyHeader : MEPSHeader :=
  ⟨0, "", "", "", "", "", "", "", "", 0, "", "", ""⟩

/-- Placeholder detail used as the `getOk` default. -/
def emptyDetail : MEPSDetail :=
  ⟨0, "", "", "", "", "", 0, 0, "", "", "", "", "", "", "", "", 0, "", ""⟩

/-- Placeholder trailer used as the `getOk` default. -/
def emptyTrailer : MEPSTrailer :=
  ⟨0, "", 0, 0, 0, 0, "", "", ""⟩

/-- Placeholder aggregate used as the `getOk` default. -/
def emptyFile : MEPSFile :=
  ⟨emptyHeader, [], emptyTrailer⟩

/-- A well-formed file stem of the shape the trailer decoder requires (it is the
example stem from `main.py`). -/
def scenarioFname : String := "MEPS_00029_20241027011323_1"

/-- A fixed parse timestamp standing in for `datetime.now()`. -/
def nowStamp : String := "20250101000000"

/-- Scenario A header line: marker `0`, file-type `MEPS`, VAT-rate slice `023`. -/
def scenarioHeaderLine : String :=
  "0MEPS00000001000000020000000000100000000000   0002997802300000000002"

/-- Scenario A revision-1 detail line (98 characters): payment-amount slice
`0000001000`, fee slice `00050`, terminal-type slice `A`. -/
def scenarioDetailLine : String :=
  "20100010000000120240101120000000000100000050ATERM00000100001LOCATION0000001REF123456E0000000000000"

/-- Scenario A trailer line: `totreg` slice `00000001`, `montranps` slice
`0000000000000950` (9.50), `tottarps` slice `000000000050` (0.50). -/
def scenarioTrailerLine : String :=
  "9000000010000000000000950000000000050000000000000"

/-- The Scenario A detail line with the terminal-type character replaced by `Z`, a
code outside the enumerated terminal-type set. -/
def zDetailLine : String :=
  "20100010000000120240101120000000000100000050ZTERM00000100001LOCATION0000001REF123456E0000000000000"

/-- The Scenario A header line with the file-type slice replaced by `XEPS`, which
violates the header's file-type invariant. -/
def badTypeHeaderLine : String :=
  "0XEPS00000001000000020000000000100000000000   0002997802300000000002"

/-- The Scenario A detail line with the log-id slice `[3:7]` replaced by `ABCD`: every
field the spec names is still well-formed (the spec types `idlog` as a plain string),
but `line[3:7] + line[7:15]` is not a decimal integer. -/
def badIdDetailLine : String :=
  "201ABCD0000000120240101120000000000100000050ATERM00000100001LOCATION0000001REF123456E0000000000000"

/-- A 29-digit string: one significant digit more than the default `decimal` context
precision of 28, so dividing it by `10^2` forces the context to round. -/
def overPrecisionRaw : String :=
  "11111111111111111111111111111"

/-- The Scenario A input: header, one revision-1 detail, trailer. -/
def scenarioLines : List String :=
  [scenarioHeaderLine, scenarioDetailLine, scenarioTrailerLine]

/-- The parse of the Scenario A file. -/
def scenarioParse : Except MEPSErr MEPSFile :=
  parseFile scenarioLines scenarioFname nowStamp

/-- The Scenario A parse result. -/
def scenarioResult : MEPSFile :=
  getOk scenarioParse emptyFile

/-- The decoded Scenario A header record. -/
def scenarioHeader : MEPSHeader :=
  getOk (parseHeader scenarioHeaderLine scenarioFname nowStamp) emptyHeader

/-- The decoded detail record of the line whose terminal-type character is `Z`. -/
def zDetail : MEPSDetail :=
  getOk (parseDetail zDetailLine scenarioFname nowStamp) emptyDetail

/-- The decoded Scenario A detail record. -/
def scenarioDetail : MEPSDetail :=
  getOk (parseDetail scenarioDetailLine scenarioFname nowStamp) emptyDetail

/-- The decoded Scenario A trailer record. -/
def scenarioTrailerRec : MEPSTrailer :=
  getOk (parseTrailer scenarioTrailerLine scenarioFname nowStamp) emptyTrailer

/-- Helper facts about character-list trimming: `dropWhile` by the same predicate is
stable on any prefix of a list it leaves unchanged. -/
theorem dropWhile_eq_self_of_prefix {p : Char → Bool} {x y : List Char}
    (hxy : x <+: y) (hy : y.dropWhile p = y) : x.dropWhile p = x := by
  cases x with
  | nil => rfl
  | cons a xs =>
    obtain ⟨t, ht⟩ := hxy
    rw [← ht] at hy
    by_cases hpa : p a
    · exfalso
      rw [List.cons_append, List.dropWhile_cons_of_pos hpa] at hy
      have hlen := (List.dropWhile_sublist (l := xs ++ t) p).length_le
      rw [hy] at hlen
      simp at hlen
    · rw [List.dropWhile_cons_of_neg hpa]

/-- Stripping whitespace twice is the same as stripping once. -/
theorem stripChars_idem (l : List Char) : stripChars (stripChars l) = stripChars l := by
  unfold stripChars
  have h1 : ((l.dropWhile Char.isWhitespace).rdropWhile Char.isWhitespace).dropWhile
      Char.isWhitespace =
      (l.dropWhile Char.isWhitespace).rdropWhile Char.isWhitespace :=
    dropWhile_eq_self_of_prefix (List.rdropWhile_prefix _ _)
      (List.dropWhile_idempotent _ _)
  rw [h1, List.rdropWhile_idempotent]

/-- An all-digit list is untouched by `takeWhile Char.isDigit`. -/
theorem takeWhile_digits_eq_self {l : List Char} (h : l.all Char.isDigit = true) :
    l.takeWhile Char.isDigit = l :=
  List.takeWhile_eq_self_iff.mpr (by simpa using h)

/-- An all-digit list is emptied by `dropWhile Char.isDigit`. -/
theorem dropWhile_digits_eq_nil {l : List Char} (h : l.all Char.isDigit = true) :
    l.dropWhile Char.isDigit = [] :=
  List.dropWhile_eq_nil_iff.mpr (by simpa using h)

/-- Inversion for `digitsToNat`. -/
theorem digitsToNat_some {ds : List Char} {m : Nat} (h : digitsToNat ds = some m) :
    ds ≠ [] ∧ ds.all Char.isDigit = true ∧ m = natVal ds := by
  unfold digitsToNat at h
  split at h
  · rename_i hcond
    exact ⟨hcond.1, hcond.2, (Option.some_injective _ h).symm⟩
  · exact absurd h (by simp)

/-- The list the `Decimal` constructor model strips is the same list `pyInt` strips,
because stripping is idempotent. -/
theorem pyStrip_toList_strip (s : String) :
    stripChars (pyStrip s).toList = stripChars s.toList := by
  show stripChars (stripChars s.toList) = stripChars s.toList
  exact stripChars_idem s.toList

/-- When `int(s)` accepts `s` with value `n`, `Decimal(s.strip())` accepts it with the
same (integer) value. -/
theorem pyDecimal_of_pyInt (s : String) (n : Int) (h : pyInt s = some n) :
    pyDecimal (pyStrip s) = some (n : ℚ) := by
  unfold pyInt at h
  unfold pyDecimal
  rw [pyStrip_toList_strip]
  cases hcs : stripChars s.toList with
  | nil => rw [hcs] at h; exact absurd h (by simp [pyIntCore])
  | cons c rest =>
    rw [hcs] at h
    simp only [pyIntCore] at h
    by_cases hplus : c = '+'
    · rw [if_pos hplus] at h
      cases hdg : digitsToNat rest with
      | none => rw [hdg] at h; exact absurd h (by simp)
      | some m =>
        rw [hdg] at h
        obtain ⟨hne, hall, hval⟩ := digitsToNat_some hdg
        injection h with h'
        simp only [decSign, if_pos hplus, decBody, takeWhile_digits_eq_self hall,
          dropWhile_digits_eq_nil hall, if_neg hne]
        rw [← h', hval]
        norm_num
    · rw [if_neg hplus] at h
      by_cases hminus : c = '-'
      · rw [if_pos hminus] at h
        cases hdg : digitsToNat rest with
        | none => rw [hdg] at h; exact absurd h (by simp)
        | some m =>
          rw [hdg] at h
          obtain ⟨hne, hall, hval⟩ := digitsToNat_some hdg
          injection h with h'
          simp only [decSign, if_neg hplus, if_pos hminus, decBody,
            takeWhile_digits_eq_self hall, dropWhile_digits_eq_nil hall, if_neg hne]
          rw [← h', hval]
          push_cast
          ring_nf
          norm_cast
      · rw [if_neg hminus] at h
        cases hdg : digitsToNat (c :: rest) with
        | none => rw [hdg] at h; exact absurd h (by simp)
        | some m =>
          rw [hdg] at h
          obtain ⟨hne, hall, hval⟩ := digitsToNat_some hdg
          injection h with h'
          simp only [decSign, if_neg hplus, if_neg hminus, decBody,
            takeWhile_digits_eq_self hall, dropWhile_digits_eq_nil hall, if_neg hne]
          rw [← h', hval]
          norm_num

/-- The digit counter ignores its fuel beyond the number's size: zero needs none. -/
theorem numDigitsAux_zero (fuel : Nat) : numDigitsAux fuel 0 = 0 := by
  cases fuel <;> simp [numDigitsAux]

/-- With enough fuel, `numDigitsAux` counts decimal digits: its result `d` satisfies
`10^(d-1) ≤ n < 10^d` for positive `n`. -/
theorem numDigitsAux_bounds :
    ∀ fuel n, n < fuel → 1 ≤ n →
      10 ^ (numDigitsAux fuel n - 1) ≤ n ∧ n < 10 ^ numDigitsAux fuel n := by
  intro fuel
  induction fuel with
  | zero => intro n h; omega
  | succ fuel ih =>
    intro n hlt hn
    have hn0 : n ≠ 0 := by omega
    simp only [numDigitsAux, if_neg hn0]
    by_cases h10 : n / 10 = 0
    · have hsmall : n < 10 := by
        by_contra hc
        push_neg at hc
        have : 1 ≤ n / 10 := (Nat.le_div_iff_mul_le (by norm_num)).mpr (by omega)
        omega
      rw [h10, numDigitsAux_zero]
      constructor
      · simpa using hn
      · simpa using hsmall
    · have hge : 1 ≤ n / 10 := Nat.pos_of_ne_zero h10
      have hlt2 : n / 10 < fuel := by
        have := Nat.div_lt_self (show 0 < n by omega) (show 1 < 10 by norm_num)
        omega
      obtain ⟨ihl, ihu⟩ := ih (n / 10) hlt2 hge
      have hd1 : 1 ≤ numDigitsAux fuel (n / 10) := by
        by_contra hc
        push_neg at hc
        have hz : numDigitsAux fuel (n / 10) = 0 := by omega
        rw [hz] at ihu
        simp at ihu
        omega
      constructor
      · have hsplit : 10 ^ numDigitsAux fuel (n / 10) =
            10 ^ (numDigitsAux fuel (n / 10) - 1) * 10 := by
          rw [← pow_succ]
          congr 1
          omega
        calc 10 ^ (numDigitsAux fuel (n / 10) + 1 - 1)
            = 10 ^ (numDigitsAux fuel (n / 10) - 1) * 10 := by
              rw [Nat.add_sub_cancel, hsplit]
          _ ≤ n / 10 * 10 := Nat.mul_le_mul_right _ ihl
          _ ≤ n := Nat.div_mul_le_self n 10
      · have hmod : n < n / 10 * 10 + 10 := by
          have h1 := Nat.div_add_mod n 10
          have h2 := Nat.mod_lt n (show 0 < 10 by norm_num)
          omega
        calc n < n / 10 * 10 + 10 := hmod
          _ = (n / 10 + 1) * 10 := by ring
          _ ≤ 10 ^ numDigitsAux fuel (n / 10) * 10 :=
              Nat.mul_le_mul_right _ (by omega)
          _ = 10 ^ (numDigitsAux fuel (n / 10) + 1) := (pow_succ 10 _).symm

/-- Lower digit bound: `10^(numDigits n - 1) ≤ n` for positive `n`. -/
theorem numDigits_lower (n : Nat) (h : 1 ≤ n) : 10 ^ (numDigits n - 1) ≤ n :=
  (numDigitsAux_bounds (n + 1) n (by omega) h).1

/-- Upper digit bound: `n < 10^(numDigits n)` for positive `n`. -/
theorem numDigits_upper (n : Nat) (h : 1 ≤ n) : n < 10 ^ numDigits n :=
  (numDigitsAux_bounds (n + 1) n (by omega) h).2

/-- The computed floor logarithm never overshoots: `10^(ratFloorLog10 x) ≤ x` for
positive `x`. -/
theorem ratFloorLog10_le (x : ℚ) (hx : 0 < x) : (10 : ℚ) ^ ratFloorLog10 x ≤ x := by
  unfold ratFloorLog10
  split_ifs with h
  · exact h
  · have hnum : 1 ≤ x.num.natAbs :=
      Int.natAbs_pos.mpr (ne_of_gt (Rat.num_pos.mpr hx))
    have hden : 1 ≤ x.den := Nat.pos_of_ne_zero x.den_nz
    have hdn1 : 1 ≤ numDigits x.num.natAbs := by
      by_contra hc
      push_neg at hc
      have hz : numDigits x.num.natAbs = 0 := by omega
      have hup := numDigits_upper x.num.natAbs hnum
      rw [hz, pow_zero] at hup
      omega
    have h1 := numDigits_lower x.num.natAbs hnum
    have h2 := numDigits_upper x.den hden
    have hkey : (10 : ℚ) ^ ((numDigits x.num.natAbs : Int) - (numDigits x.den) - 1) =
        (10 : ℚ) ^ (numDigits x.num.natAbs - 1) / (10 : ℚ) ^ (numDigits x.den) := by
      rw [show ((numDigits x.num.natAbs : Int) - (numDigits x.den) - 1) =
          ((numDigits x.num.natAbs - 1 : ℕ) : Int) - ((numDigits x.den : ℕ) : Int) by
        push_cast [hdn1]
        ring]
      rw [zpow_sub₀ (by norm_num : (10 : ℚ) ≠ 0), zpow_natCast, zpow_natCast]
    have hnumc : ((x.num.natAbs : ℚ)) = (x.num : ℚ) := by
      rw [Int.cast_natAbs, Int.cast_abs]
      exact abs_of_pos (by exact_mod_cast Rat.num_pos.mpr hx)
    have hcore : (10 : ℚ) ^ (numDigits x.num.natAbs - 1) / (10 : ℚ) ^ (numDigits x.den)
        ≤ (x.num : ℚ) / (x.den : ℚ) := by
      rw [div_le_div_iff (by positivity)
        (by exact_mod_cast hden : (0 : ℚ) < (x.den : ℚ))]
      have ha : ((10 ^ (numDigits x.num.natAbs - 1) : ℕ) : ℚ) ≤ (x.num.natAbs : ℚ) := by
        exact_mod_cast h1
      have hb : ((x.den : ℕ) : ℚ) ≤ ((10 ^ (numDigits x.den) : ℕ) : ℚ) := by
        exact_mod_cast h2.le
      calc (10 : ℚ) ^ (numDigits x.num.natAbs - 1) * (x.den : ℚ)
          ≤ (x.num.natAbs : ℚ) * ((10 ^ (numDigits x.den) : ℕ) : ℚ) := by
            apply mul_le_mul (by push_cast at ha ⊢; exact ha) hb (by positivity)
              (by positivity)
        _ = (x.num.natAbs : ℚ) * (10 : ℚ) ^ (numDigits x.den) := by push_cast; ring
        _ = (x.num : ℚ) * (10 : ℚ) ^ (numDigits x.den) := by rw [hnumc]
    rw [hkey]
    calc (10 : ℚ) ^ (numDigits x.num.natAbs - 1) / (10 : ℚ) ^ (numDigits x.den)
        ≤ (x.num : ℚ) / (x.den : ℚ) := hcore
      _ = x := Rat.num_div_den x

/-- Context rounding is the identity on any value `n / 10^p` whose integer part of
significand has at most 28 digits (`|n| < 10^28`): such quotients are exactly
representable at the default precision. -/
theorem round28_eq_self (n : Int) (p : Nat) (hb : n.natAbs < 10 ^ 28) :
    round28 ((n : ℚ) / (10 : ℚ) ^ p) = (n : ℚ) / (10 : ℚ) ^ p := by
  by_cases hn : (n : ℚ) / (10 : ℚ) ^ p = 0
  · rw [round28, if_pos hn, hn]
  · have hne : (n : ℚ) ≠ 0 := by
      intro h
      exact hn (by rw [h, zero_div])
    set x : ℚ := (n : ℚ) / (10 : ℚ) ^ p with hxdef
    have hxpos : 0 < |x| := abs_pos.mpr hn
    have habs : |x| = (n.natAbs : ℚ) * (10 : ℚ) ^ (-(p : Int)) := by
      rw [hxdef, abs_div, abs_of_pos (show (0 : ℚ) < (10 : ℚ) ^ p by positivity),
        div_eq_mul_inv, ← zpow_natCast (10 : ℚ) p, ← zpow_neg]
      congr 1
      rw [Int.cast_natAbs, Int.cast_abs]
    have hk := ratFloorLog10_le |x| hxpos
    have hub : |x| < (10 : ℚ) ^ ((28 : Int) - p) := by
      rw [habs]
      have h1 : (n.natAbs : ℚ) < (10 : ℚ) ^ (28 : Int) := by
        rw [show ((28 : Int)) = ((28 : ℕ) : Int) by norm_num, zpow_natCast]
        exact_mod_cast hb
      calc (n.natAbs : ℚ) * (10 : ℚ) ^ (-(p : Int))
          < (10 : ℚ) ^ (28 : Int) * (10 : ℚ) ^ (-(p : Int)) :=
            mul_lt_mul_of_pos_right h1 (zpow_pos (by norm_num) _)
        _ = (10 : ℚ) ^ ((28 : Int) - p) := by
            rw [← zpow_add₀ (by norm_num : (10 : ℚ) ≠ 0)]
            ring_nf
    have hkle : ratFloorLog10 |x| ≤ (27 : Int) - p := by
      have hchain := lt_of_le_of_lt hk hub
      have := (zpow_lt_zpow_iff_right₀ (by norm_num : (1 : ℚ) < 10)).mp hchain
      omega
    have hshift : |x| * (10 : ℚ) ^ ((27 : Int) - ratFloorLog10 |x|) =
        ((n.natAbs * 10 ^ (((27 : Int) - p - ratFloorLog10 |x|).toNat) : ℕ) : ℚ) := by
      nth_rewrite 1 [habs]
      rw [mul_assoc, ← zpow_add₀ (by norm_num : (10 : ℚ) ≠ 0)]
      rw [show (-(p : Int) + ((27 : Int) - ratFloorLog10 |x|)) =
          ((27 : Int) - p - ratFloorLog10 |x|) by ring]
      rw [← Int.toNat_of_nonneg (show (0 : Int) ≤ (27 : Int) - p - ratFloorLog10 |x|
        by omega), zpow_natCast]
      rw [Nat.cast_mul, Nat.cast_pow]
      norm_num
      left
      rw [sup_eq_left.mpr
        (show (0 : Int) ≤ 27 - (p : Int) - ratFloorLog10 |x| by omega)]
    rw [round28, if_neg hn, if_pos (by rw [hshift]; exact Rat.den_natCast _)]

/-- Bound on the digit-list value: an all-digit list of length `k` values below
`10^k`. -/
theorem natVal_foldl_lt :
    ∀ (ds : List Char), ds.all Char.isDigit = true →
      ∀ a, ds.foldl (fun a c => 10 * a + (c.toNat - 48)) a < (a + 1) * 10 ^ ds.length := by
  intro ds
  induction ds with
  | nil => intro _ a; simpa using Nat.lt_succ_self a
  | cons c ds ih =>
    intro h a
    simp only [List.all_cons, Bool.and_eq_true] at h
    have hc : c.toNat - 48 ≤ 9 := by
      have h2 := h.1
      simp [Char.isDigit] at h2
      have h3 : c.val.toNat ≤ 57 :=
        UInt32.toNat_le_of_le (by norm_num [UInt32.size]) h2.2
      simp only [Char.toNat]
      omega
    simp only [List.foldl_cons, List.length_cons]
    calc ds.foldl (fun a c => 10 * a + (c.toNat - 48)) (10 * a + (c.toNat - 48))
        < (10 * a + (c.toNat - 48) + 1) * 10 ^ ds.length := ih h.2 _
      _ ≤ (a + 1) * 10 ^ (ds.length + 1) := by
          rw [pow_succ]
          have : 10 * a + (c.toNat - 48) + 1 ≤ (a + 1) * 10 := by omega
          calc (10 * a + (c.toNat - 48) + 1) * 10 ^ ds.length
              ≤ (a + 1) * 10 * 10 ^ ds.length := Nat.mul_le_mul_right _ this
            _ = (a + 1) * (10 ^ ds.length * 10) := by ring

/-- Value bound for an all-digit list. -/
theorem natVal_lt (ds : List Char) (h : ds.all Char.isDigit = true) :
    natVal ds < 10 ^ ds.length := by
  have := natVal_foldl_lt ds h 0
  simpa [natVal] using this

/-- The sign step returns sign `±1` and a body no longer than its input. -/
theorem decSign_spec (cs : List Char) :
    ((decSign cs).1 = 1 ∨ (decSign cs).1 = -1) ∧ (decSign cs).2.length ≤ cs.length := by
  unfold decSign
  cases cs with
  | nil => simp
  | cons c rest =>
    by_cases hp : c = '+'
    · simp [hp]
    · by_cases hm : c = '-'
      · simp [hp, hm]
      · simp [hp, hm]

/-- A value accepted by the body step is `m / 10^l` with `m < 10^(body length)`. -/
theorem decBody_bound (sign : ℚ) (body : List Char) (q : ℚ)
    (h : decBody sign body = some q) :
    ∃ (m l : Nat), m < 10 ^ body.length ∧ q = sign * ((m : ℚ) / 10 ^ l) := by
  have hall : (body.takeWhile Char.isDigit).all Char.isDigit = true := by
    rw [List.all_eq_true]
    intro c hc
    exact List.mem_takeWhile_imp hc
  have hi : natVal (body.takeWhile Char.isDigit) <
      10 ^ (body.takeWhile Char.isDigit).length := natVal_lt _ hall
  have hile : (body.takeWhile Char.isDigit).length ≤ body.length := by
    simpa using (List.takeWhile_sublist (p := Char.isDigit) (l := body)).length_le
  cases hdrop : body.dropWhile Char.isDigit with
  | nil =>
    simp only [decBody, hdrop] at h
    rw [if_neg (show ¬body.takeWhile Char.isDigit = [] by
      intro hc; rw [hc] at h; exact absurd h (by simp))] at h
    simp only [Option.some.injEq] at h
    refine ⟨natVal (body.takeWhile Char.isDigit), 0, ?_, ?_⟩
    · exact lt_of_lt_of_le hi (Nat.pow_le_pow_right (by norm_num) hile)
    · rw [← h]
      norm_num
  | cons c frac =>
    simp only [decBody, hdrop] at h
    by_cases hdot : c = '.'
    · rw [if_pos hdot] at h
      by_cases hok : frac.all Char.isDigit = true ∧
          (body.takeWhile Char.isDigit ≠ [] ∨ frac ≠ [])
      · rw [if_pos hok] at h
        simp only [Option.some.injEq] at h
        refine ⟨natVal (body.takeWhile Char.isDigit) * 10 ^ frac.length + natVal frac,
          frac.length, ?_, ?_⟩
        · have hf : natVal frac < 10 ^ frac.length := natVal_lt _ hok.1
          have hlen : (body.takeWhile Char.isDigit).length + frac.length ≤
              body.length := by
            have hsplit :=
              List.takeWhile_append_dropWhile (p := Char.isDigit) (l := body)
            have hlencong := congrArg List.length hsplit
            simp only [List.length_append, hdrop, List.length_cons] at hlencong
            omega
          calc natVal (body.takeWhile Char.isDigit) * 10 ^ frac.length + natVal frac
              < natVal (body.takeWhile Char.isDigit) * 10 ^ frac.length +
                  10 ^ frac.length := Nat.add_lt_add_left hf _
            _ = (natVal (body.takeWhile Char.isDigit) + 1) * 10 ^ frac.length := by
                ring
            _ ≤ 10 ^ (body.takeWhile Char.isDigit).length * 10 ^ frac.length :=
                Nat.mul_le_mul_right _ (by omega)
            _ = 10 ^ ((body.takeWhile Char.isDigit).length + frac.length) :=
                (pow_add 10 _ _).symm
            _ ≤ 10 ^ body.length := Nat.pow_le_pow_right (by norm_num) hlen
        · rw [← h]
          push_cast
          field_simp
      · rw [if_neg hok] at h
        exact absurd h (by simp)
    · rw [if_neg hdot] at h
      exact absurd h (by simp)

/-- Every value `Decimal` accepts from a string is `n / 10^l` with
`|n| < 10^(length of the stripped string)`. -/
theorem pyDecimal_bound (s : String) (q : ℚ) (h : pyDecimal s = some q) :
    ∃ (n : Int) (l : Nat), q = (n : ℚ) / 10 ^ l ∧
      n.natAbs < 10 ^ (stripChars s.toList).length := by
  unfold pyDecimal at h
  obtain ⟨m, l, hm, hq⟩ := decBody_bound _ _ _ h
  obtain ⟨hsign, hlen⟩ := decSign_spec (stripChars s.toList)
  have hmlen : m < 10 ^ (stripChars s.toList).length :=
    lt_of_lt_of_le hm (Nat.pow_le_pow_right (by norm_num) hlen)
  rcases hsign with h1 | h1
  · refine ⟨(m : Int), l, ?_, by simpa using hmlen⟩
    rw [hq, h1]
    push_cast
    ring
  · refine ⟨-(m : Int), l, ?_, by simpa using hmlen⟩
    rw [hq, h1]
    push_cast
    ring

/-- Length never grows under whitespace stripping. -/
theorem stripChars_length_le (l : List Char) : (stripChars l).length ≤ l.length := by
  unfold stripChars
  calc ((l.dropWhile Char.isWhitespace).rdropWhile Char.isWhitespace).length
      ≤ (l.dropWhile Char.isWhitespace).length :=
        (List.rdropWhile_prefix _ _).length_le
    _ ≤ l.length := (List.dropWhile_sublist _).length_le

/-- C1: the claim says every terminal-type code outside {A,B,E,I,L,M,N} makes detail
decoding fail with a validation error and is never passed through raw.  The code does
the opposite: `TerminalType.from_code` returns the raw character, so this revision-1
detail line with terminal-type `Z` decodes successfully and the returned record
carries the unchecked `"Z"`, a code outside the enumerated set. -/
theorem claim1_terminal_type_passthrough :
    parseDetail zDetailLine scenarioFname nowStamp = .ok zDetail ∧
    zDetail.tipoterm = "Z" ∧ "Z" ∉ terminalTypeCodes := by
  decide

/-- C2 counterexample: on a header line whose VAT-rate slice `[54:57]` is `"023"`
(plain decimal value 23), header decoding succeeds with `taxaiva = 23/100`, not 23 —
`_parse_decimal` is called with its default 2 implied fractional digits, so the claim
that the VAT rate is parsed with 0 implied fractional digits (not cents-scaled) is
false. -/
theorem claim2_counterexample :
    parseHeader scenarioHeaderLine scenarioFname nowStamp = .ok scenarioHeader ∧
    pyDecimal (pyStrip (pySlice scenarioHeaderLine 54 57)) = some 23 ∧
    scenarioHeader.taxaiva = 23 / 100 ∧ ¬scenarioHeader.taxaiva = 23 := by
  decide

/-- C2 amended: the header's VAT-rate field (slice `[54:57]`) is converted with 2
implied fractional digits: every successfully decoded header carries
`taxaiva = d / 100` where `d` is the plain decimal value of the raw slice. -/
theorem claim2_vat_two_implied_digits (line fname now : String) (h : MEPSHeader)
    (hp : parseHeader line fname now = .ok h) :
    ∃ q, pyDecimal (pyStrip (pySlice line 54 57)) = some q ∧
      h.taxaiva = q / (10 : ℚ) ^ 2 := by
  cases hInt : pyInt (pySlice line 21 32 ++ pySlice line 46 51) with
  | none => simp [parseHeader, errorContext, hInt] at hp
  | some i =>
    cases hDec : parseDecimal (pySlice line 54 57) 2 with
    | error e => simp [parseHeader, errorContext, hInt, hDec] at hp
    | ok tax =>
      by_cases h0 : pySlice line 0 1 = "0"
      · by_cases h1 : pyStrip (pySlice line 1 5) = "MEPS"
        · simp only [parseHeader, errorContext, hInt, hDec, h0, h1, ne_eq,
            not_true_eq_false, if_false, Except.ok.injEq] at hp
          cases hq : pyDecimal (pyStrip (pySlice line 54 57)) with
          | none => simp [parseDecimal, hq] at hDec
          | some q =>
            simp only [parseDecimal, hq, Except.ok.injEq] at hDec
            obtain ⟨n, l, hql, hnb⟩ := pyDecimal_bound _ _ hq
            have hlen : (stripChars (pyStrip (pySlice line 54 57)).toList).length ≤ 3 := by
              calc (stripChars (pyStrip (pySlice line 54 57)).toList).length
                  ≤ (pyStrip (pySlice line 54 57)).toList.length := stripChars_length_le _
                _ = (stripChars (pySlice line 54 57).toList).length := rfl
                _ ≤ (pySlice line 54 57).toList.length := stripChars_length_le _
                _ ≤ 3 := by
                    show ((line.toList.drop 54).take (57 - 54)).length ≤ 3
                    simpa using List.length_take_le
            have hnb28 : n.natAbs < 10 ^ 28 :=
              lt_of_lt_of_le
                (lt_of_lt_of_le hnb (Nat.pow_le_pow_right (by norm_num) hlen))
                (by norm_num)
            have hqp : q / (10 : ℚ) ^ 2 = ((n : ℚ)) / (10 : ℚ) ^ (l + 2) := by
              rw [hql, div_div, ← pow_add]
            rw [hqp, round28_eq_self n (l + 2) hnb28] at hDec
            refine ⟨q, rfl, ?_⟩
            rw [← hp]
            exact hDec.symm.trans hqp.symm
        · simp [parseHeader, errorContext, hInt, hDec, h0, h1] at hp
      · simp [parseHeader, errorContext, hInt, hDec, h0] at hp

/-- C2 amended, witness at the Scenario A header line. -/
theorem claim2_vat_two_implied_digits_witness :
    ∃ q, pyDecimal (pyStrip (pySlice scenarioHeaderLine 54 57)) = some q ∧
      scenarioHeader.taxaiva = q / (10 : ℚ) ^ 2 :=
  claim2_vat_two_implied_digits scenarioHeaderLine scenarioFname nowStamp
    scenarioHeader (by decide)

/-- C3 counterexample: the header of this one-line file raises the wrong-file-type
`MEPSValidationError` during decoding of line 1, but `parse_file` hands the caller a
`MEPSParsingError` wrapping it — the per-line handler catches every exception,
validation errors included, so the validation error does not surface un-wrapped. -/
theorem claim3_counterexample :
    parseFile [badTypeHeaderLine] scenarioFname nowStamp =
      .error (.parsing "Error on line 1: Invalid file type") := by
  decide

/-- C3 amended: every error escaping a line of `parse_file`'s loop — a validation
error raised while decoding the line included — is wrapped into a parsing error
carrying the 1-based line number; only whole-file validation errors reach the caller
un-wrapped. -/
theorem claim3_line_errors_wrapped (fname now : String) (st : ParserState) (n : Nat)
    (line : String) (e : MEPSErr) (hp : processLine fname now st n line = .error e) :
    ∃ m, e = MEPSErr.parsing m := by
  unfold processLine at hp
  by_cases hblank : pyStrip line = ""
  · rw [if_pos hblank] at hp; exact absurd hp (by simp)
  · rw [if_neg hblank] at hp
    cases hr : dispatchLine fname now st line with
    | ok st2 => rw [hr] at hp; exact absurd hp (by simp)
    | error e2 =>
      rw [hr] at hp
      simp only [Except.error.injEq] at hp
      exact ⟨_, hp.symm⟩

/-- C3 amended, witness at the wrong-file-type header line. -/
theorem claim3_line_errors_wrapped_witness :
    ∃ m, MEPSErr.parsing "Error on line 1: Invalid file type" = MEPSErr.parsing m :=
  claim3_line_errors_wrapped scenarioFname nowStamp initState 1 badTypeHeaderLine
    (MEPSErr.parsing "Error on line 1: Invalid file type") (by decide)

/-- C7 counterexample: on the 29-digit string the claim fails — the `Decimal`
division rounds at the default context's 28 significant digits (half-even), so the
Scaler returns `1111111111111111111111111111 / 10` rather than the exact
`11111111111111111111111111111 / 100`, and multiplying back by `10^2` does not
reproduce the original integer value. -/
theorem claim7_counterexample :
    pyInt overPrecisionRaw = some 11111111111111111111111111111 ∧
    parseDecimal overPrecisionRaw 2 =
      .ok ((1111111111111111111111111111 : ℚ) / 10) ∧
    (1111111111111111111111111111 : ℚ) / 10 ≠
      (11111111111111111111111111111 : ℚ) / (10 : ℚ) ^ 2 ∧
    (1111111111111111111111111111 : ℚ) / 10 * (10 : ℚ) ^ 2 ≠
      (11111111111111111111111111111 : ℚ) := by
  decide

/-- C7 amended: on any optionally-signed digit string accepted by `int` with value
`n` of at most 28 digits (`|n| < 10^28`, the default `decimal` context precision),
the Decimal Scaler yields exactly `n / 10^p`, and multiplying back by `10^p`
reproduces `n` — no precision loss; longer digit strings are rounded to 28
significant digits by the division. -/
theorem claim7_scaler_exact (s : String) (p : Nat) (n : Int) (hs : pyInt s = some n)
    (hb : n.natAbs < 10 ^ 28) :
    parseDecimal s p = .ok ((n : ℚ) / (10 : ℚ) ^ p) ∧
    ((n : ℚ) / (10 : ℚ) ^ p) * (10 : ℚ) ^ p = (n : ℚ) := by
  constructor
  · simp [parseDecimal, pyDecimal_of_pyInt s n hs, round28_eq_self n p hb]
  · exact div_mul_cancel₀ _ (pow_ne_zero p (by norm_num))

/-- C7 amended, witness at the Scenario A fee slice `"00050"` with 2 implied
digits. -/
theorem claim7_scaler_exact_witness :
    parseDecimal "00050" 2 = .ok (((50 : Int) : ℚ) / (10 : ℚ) ^ 2) ∧
    (((50 : Int) : ℚ) / (10 : ℚ) ^ 2) * (10 : ℚ) ^ 2 = ((50 : Int) : ℚ) :=
  claim7_scaler_exact "00050" 2 50 (by decide) (by decide)

/-- C9: the Scenario A file — header with marker `0` and file-type `MEPS`, one
revision-1 detail with payment-amount slice `"0000001000"` and fee slice `"00050"`,
trailer with `totreg = 1`, `montranps = 9.50`, `tottarps = 0.50` — parses
successfully, and the single detail has `montpgps = 10`, `tarifaps = 0.50` and
`net_amount = 9.50`. -/
theorem claim9_scenarioA :
    scenarioParse = .ok scenarioResult ∧
    scenarioResult.header.tipreg = "0" ∧
    scenarioResult.header.fich = "MEPS" ∧
    scenarioResult.details.map MEPSDetail.version = [1] ∧
    scenarioResult.details.map MEPSDetail.montpgps = [10] ∧
    scenarioResult.details.map MEPSDetail.tarifaps = [1 / 2] ∧
    scenarioResult.details.map MEPSDetail.net_amount = [19 / 2] ∧
    scenarioResult.trailer.totreg = 1 ∧
    scenarioResult.trailer.montranps = 19 / 2 ∧
    scenarioResult.trailer.tottarps = 1 / 2 := by
  decide

/-- C10: whenever the concatenated log-id and central-log-number slices
`line[3:7] + line[7:15]` do not parse as a decimal integer, detail decoding fails with
an error wrapped as a parsing error, regardless of every other field — an
undocumented precondition, since the spec types these fields as plain strings. -/
theorem claim10_detail_id_precondition (line fname now : String)
    (hid : pyInt (pySlice line 3 7 ++ pySlice line 7 15) = none) :
    ∃ m, parseDetail line fname now = .error (.parsing m) := by
  refine ⟨"Error in detail parsing: invalid literal for int with base 10", ?_⟩
  simp [parseDetail, errorContext, hid]

/-- C10 witness: the Scenario A detail line with log-id slice `ABCD` — every
spec-named field still well-formed — fails as a parsing error. -/
theorem claim10_detail_id_precondition_witness :
    ∃ m, parseDetail badIdDetailLine scenarioFname nowStamp = .error (.parsing m) :=
  claim10_detail_id_precondition badIdDetailLine scenarioFname nowStamp (by decide)

/-- Inversion of a successful whole-file validation: header and trailer are present,
the detail sequence is nonempty, and the record count agrees with the trailer. -/
theorem validateFile_ok_inv (oh : Option MEPSHeader) (ds : List MEPSDetail)
    (ot : Option MEPSTrailer) (u : Unit) (hv : validateFile oh ds ot = .ok u) :
    ∃ hh t, oh = some hh ∧ ot = some t ∧ ds ≠ [] ∧ (ds.length : Int) = t.totreg := by
  cases oh with
  | none => simp [validateFile] at hv
  | some hh =>
    cases ot with
    | none => simp [validateFile] at hv
    | some t =>
      simp only [validateFile, Option.isNone_some, Bool.false_eq_true, if_false] at hv
      split_ifs at hv with hE hC hA hB <;>
        first
          | exact Except.noConfusion hv
          | exact ⟨hh, t, rfl, rfl, by simpa [List.isEmpty_iff] using hE,
              not_not.mp hC⟩

/-- C4: the inferred detail layout revision is a function of the trimmed line length
alone — at least 103 characters means revision 2, otherwise revision 1 — and the fee
and terminal-type fields are sliced at that revision's offsets
(`[39:49]`/`[49:50]` for revision 2, `[39:44]`/`[44:45]` for revision 1). -/
theorem claim4_revision_from_trimmed_length (line fname now : String) (d : MEPSDetail)
    (hp : parseDetail line fname now = .ok d) :
    d.version = (if 103 ≤ (pyStrip line).length then 2 else 1) ∧
    parseDecimal (pySlice line 39 (if 103 ≤ (pyStrip line).length then 49 else 44)) 2 =
      .ok d.tarifaps ∧
    d.tipoterm =
      pyStrip (pySlice line (if 103 ≤ (pyStrip line).length then 49 else 44)
        (if 103 ≤ (pyStrip line).length then 50 else 45)) := by
  cases hInt : pyInt (pySlice line 3 7 ++ pySlice line 7 15) with
  | none => simp [parseDetail, errorContext, hInt] at hp
  | some i =>
    cases hMont : parseDecimal (pySlice line 29 39) 2 with
    | error e => simp [parseDetail, errorContext, hInt, hMont] at hp
    | ok mont =>
      by_cases hlen : 103 ≤ (pyStrip line).length
      · cases hTar : parseDecimal (pySlice line 39 49) 2 with
        | error e => simp [parseDetail, errorContext, hInt, hMont, hlen, hTar] at hp
        | ok tar =>
          simp [parseDetail, errorContext, hInt, hMont, hlen, hTar] at hp
          subst hp
          exact ⟨by simp [hlen], by simp [hlen, hTar],
            by simp [hlen, TerminalType.from_code]⟩
      · cases hTar : parseDecimal (pySlice line 39 44) 2 with
        | error e => simp [parseDetail, errorContext, hInt, hMont, hlen, hTar] at hp
        | ok tar =>
          simp [parseDetail, errorContext, hInt, hMont, hlen, hTar] at hp
          subst hp
          exact ⟨by simp [hlen], by simp [hlen, hTar],
            by simp [hlen, TerminalType.from_code]⟩

/-- C4 witness at the 98-character Scenario A detail line (revision 1). -/
theorem claim4_revision_from_trimmed_length_witness :
    scenarioDetail.version =
      (if 103 ≤ (pyStrip scenarioDetailLine).length then 2 else 1) ∧
    parseDecimal (pySlice scenarioDetailLine 39
        (if 103 ≤ (pyStrip scenarioDetailLine).length then 49 else 44)) 2 =
      .ok scenarioDetail.tarifaps ∧
    scenarioDetail.tipoterm =
      pyStrip (pySlice scenarioDetailLine
        (if 103 ≤ (pyStrip scenarioDetailLine).length then 49 else 44)
        (if 103 ≤ (pyStrip scenarioDetailLine).length then 50 else 45)) :=
  claim4_revision_from_trimmed_length scenarioDetailLine scenarioFname nowStamp
    scenarioDetail (by decide)

/-- C5: every successfully returned parse satisfies `details.length = trailer.totreg`;
when the decoded aggregate reaches the count check (header and trailer present,
details nonempty) with a differing count, validation raises the record-count-mismatch
validation error; and with header and trailer present a differing count always
produces a validation error even when the detail list is empty. -/
theorem claim5_count_invariant :
    (∀ lines fname now r, parseFile lines fname now = .ok r →
        (r.details.length : Int) = r.trailer.totreg) ∧
    (∀ hh t ds, ds ≠ [] → (ds.length : Int) ≠ t.totreg →
        validateFile (some hh) ds (some t) =
          .error (.validation "Record count mismatch")) ∧
    (∀ hh t ds, (ds.length : Int) ≠ t.totreg →
        ∃ m, validateFile (some hh) ds (some t) = .error (.validation m)) := by
  refine ⟨?_, ?_, ?_⟩
  · intro lines fname now r hp
    cases hpl : processLines fname now 1 initState lines with
    | error e => simp [parseFile, hpl] at hp
    | ok st =>
      cases hv : validateFile st.header st.details st.trailer with
      | error e => simp [parseFile, hpl, hv] at hp
      | ok u =>
        obtain ⟨hh, t, hH, hT, hne, hcount⟩ := validateFile_ok_inv _ _ _ _ hv
        rw [hH, hT] at hv
        simp only [parseFile, hpl, hH, hT, hv, Except.ok.injEq] at hp
        rw [← hp]
        exact hcount
  · intro hh t ds hne hcount
    simp [validateFile, List.isEmpty_iff, hne, hcount]
  · intro hh t ds hcount
    by_cases hne : ds = []
    · exact ⟨"No detail records found", by simp [validateFile, hne]⟩
    · exact ⟨"Record count mismatch",
        by simp [validateFile, List.isEmpty_iff, hne, hcount]⟩

/-- C5 witness: the Scenario A result satisfies the invariant; doubling the detail
list against the same trailer (declared count 1) trips the record-count-mismatch
error; an empty detail list with the same declared count still fails validation. -/
theorem claim5_count_invariant_witness :
    ((scenarioResult.details.length : Int) = scenarioResult.trailer.totreg) ∧
    (validateFile (some scenarioHeader) [scenarioDetail, scenarioDetail]
        (some scenarioTrailerRec) = .error (.validation "Record count mismatch")) ∧
    (∃ m, validateFile (some scenarioHeader) [] (some scenarioTrailerRec) =
        .error (.validation m)) :=
  ⟨claim5_count_invariant.1 scenarioLines scenarioFname nowStamp scenarioResult
      (by decide),
   claim5_count_invariant.2.1 scenarioHeader scenarioTrailerRec
      [scenarioDetail, scenarioDetail] (by decide) (by decide),
   claim5_count_invariant.2.2 scenarioHeader scenarioTrailerRec [] (by decide)⟩

/-- C6: once the decoded aggregate passes the structural and count checks, validation
fails exactly when one of the two reconciliations is off by more than 0.01 in exact
arithmetic: `|Σ montpgps − Σ tarifaps − montranps| > 0.01` or
`|Σ tarifaps − tottarps| > 0.01`; differences of at most 0.01 are accepted. -/
theorem claim6_reconciliation_iff (hh : MEPSHeader) (t : MEPSTrailer)
    (ds : List MEPSDetail) (hne : ds ≠ []) (hcount : (ds.length : Int) = t.totreg) :
    (∃ e, validateFile (some hh) ds (some t) = .error e) ↔
      ((1 / 100 : ℚ) < |sumMontpgps ds - sumTarifaps ds - t.montranps| ∨
       (1 / 100 : ℚ) < |sumTarifaps ds - t.tottarps|) := by
  have hred : validateFile (some hh) ds (some t) =
      (if (1 / 100 : ℚ) < |sumMontpgps ds - sumTarifaps ds - t.montranps| then
        (.error (.validation "Amount mismatch") : Except MEPSErr Unit)
      else if (1 / 100 : ℚ) < |sumTarifaps ds - t.tottarps| then
        .error (.validation "Fee mismatch")
      else .ok ()) := by
    simp [validateFile, List.isEmpty_iff, hne, hcount]
  by_cases hA : (1 / 100 : ℚ) < |sumMontpgps ds - sumTarifaps ds - t.montranps|
  · rw [hred, if_pos hA]
    exact iff_of_true ⟨_, rfl⟩ (Or.inl hA)
  · by_cases hB : (1 / 100 : ℚ) < |sumTarifaps ds - t.tottarps|
    · rw [hred, if_neg hA, if_pos hB]
      exact iff_of_true ⟨_, rfl⟩ (Or.inr hB)
    · rw [hred, if_neg hA, if_neg hB]
      exact iff_of_false (fun ⟨_, he⟩ => by simp at he) (not_or.mpr ⟨hA, hB⟩)

/-- C6 witness at the Scenario A aggregate (both reconciliations within tolerance,
validation succeeds). -/
theorem claim6_reconciliation_iff_witness :
    (∃ e, validateFile (some scenarioHeader) [scenarioDetail]
        (some scenarioTrailerRec) = .error e) ↔
      ((1 / 100 : ℚ) <
          |sumMontpgps [scenarioDetail] - sumTarifaps [scenarioDetail] -
            scenarioTrailerRec.montranps| ∨
       (1 / 100 : ℚ) <
          |sumTarifaps [scenarioDetail] - scenarioTrailerRec.tottarps|) :=
  claim6_reconciliation_iff scenarioHeader scenarioTrailerRec [scenarioDetail]
    (by decide) (by decide)

/-- Whole-file validation agrees with the spec-worded ordered-checks formulation:
it succeeds exactly when no check is violated and otherwise reports the first
violated check's error. -/
theorem validateFile_eq_firstViolation (oh : Option MEPSHeader)
    (ds : List MEPSDetail) (ot : Option MEPSTrailer) :
    validateFile oh ds ot =
      (match firstViolation oh ds ot with
        | none => .ok ()
        | some e => .error e) := by
  cases oh with
  | none => simp [validateFile, firstViolation, List.find?]
  | some hh =>
    cases ot with
    | none => simp [validateFile, firstViolation, List.find?]
    | some t =>
      cases hE : ds.isEmpty with
      | true =>
          simp [validateFile, firstViolation, List.find?, hE]
      | false =>
          cases hC : decide ((ds.length : Int) ≠ t.totreg) with
          | true =>
              have hC' := of_decide_eq_true hC
              simp [validateFile, firstViolation, List.find?, trailerTotreg, hE,
                hC, hC']
          | false =>
              have hC' := of_decide_eq_false hC
              cases hA : decide ((1 / 100 : ℚ) <
                  |sumMontpgps ds - sumTarifaps ds - t.montranps|) with
              | true =>
                  have hA' := of_decide_eq_true hA
                  simp only [validateFile, firstViolation, List.find?,
                    trailerTotreg, trailerMontranps, trailerTottarps,
                    Option.isNone_some, Bool.false_eq_true, if_false, if_true,
                    hE, hC, hC', hA, hA', Option.map_some', Option.map_none',
                    ite_true, ite_false, decide_True, decide_False,
                    eq_self_iff_true, not_true, not_false_iff]
              | false =>
                  have hA' := of_decide_eq_false hA
                  cases hB : decide ((1 / 100 : ℚ) <
                      |sumTarifaps ds - t.tottarps|) with
                  | true =>
                      have hB' := of_decide_eq_true hB
                      simp only [validateFile, firstViolation, List.find?,
                        trailerTotreg, trailerMontranps, trailerTottarps,
                        Option.isNone_some, Bool.false_eq_true, if_false, if_true,
                        hE, hC, hC', hA, hA', hB, hB', Option.map_some',
                        Option.map_none', ite_true, ite_false, decide_True,
                        decide_False, eq_self_iff_true, not_true, not_false_iff]
                  | false =>
                      have hB' := of_decide_eq_false hB
                      simp only [validateFile, firstViolation, List.find?,
                        trailerTotreg, trailerMontranps, trailerTottarps,
                        Option.isNone_some, Bool.false_eq_true, if_false, if_true,
                        hE, hC, hC', hA, hA', hB, hB', Option.map_some',
                        Option.map_none', ite_true, ite_false, decide_True,
                        decide_False, eq_self_iff_true, not_true, not_false_iff]

/-- C8: validation runs its checks in the fixed spec order — header absent, trailer
absent, empty detail sequence, record count, amount reconciliation, fee
reconciliation — succeeds exactly when no check fails, reports exactly the first
violated check, and every error it reports is a validation error (distinguishable
from a parsing error by its kind). -/
theorem claim8_first_violation_reported (oh : Option MEPSHeader)
    (ds : List MEPSDetail) (ot : Option MEPSTrailer) :
    (validateFile oh ds ot = .ok () ↔ firstViolation oh ds ot = none) ∧
    (∀ e, validateFile oh ds ot = .error e ↔ firstViolation oh ds ot = some e) ∧
    (∀ e, validateFile oh ds ot = .error e → ∃ m, e = .validation m) := by
  have hmain := validateFile_eq_firstViolation oh ds ot
  have hval : ∀ e, firstViolation oh ds ot = some e → ∃ m, e = .validation m := by
    intro e he
    unfold firstViolation at he
    obtain ⟨c, hfind, hc2⟩ := Option.map_eq_some'.mp he
    have hmem := List.mem_of_find?_eq_some hfind
    simp only [List.mem_cons, List.not_mem_nil, or_false] at hmem
    rcases hmem with h | h | h | h | h | h <;> (subst h; exact ⟨_, hc2.symm⟩)
  refine ⟨?_, ?_, ?_⟩
  · rw [hmain]
    cases hF : firstViolation oh ds ot <;> simp
  · intro e
    rw [hmain]
    cases hF : firstViolation oh ds ot <;> simp
  · intro e he
    rw [hmain] at he
    cases hF : firstViolation oh ds ot with
    | none => rw [hF] at he; simp at he
    | some a =>
      rw [hF] at he
      simp at he
      subst he
      exact hval a hF

/-- C8 witness: on the empty aggregate the first check (missing header) is the one
reported, and it is a validation error. -/
theorem claim8_first_violation_reported_witness :
    ∃ m, MEPSErr.validation "Missing header record" = MEPSErr.validation m :=
  (claim8_first_violation_reported none [] none).2.2
    (MEPSErr.validation "Missing header record") (by decide)

end MEPS
